import Mathlib

/-!
Verification of the multi-renderer dispatch core of the `astro` fork.

The development shallowly embeds:

* `packages/internal-helpers/src/create-filter.ts` (`ensureArray`, `toMatcher`,
  `createFilter`) — the include/exclude path filter;
* the renderer fixtures
  `packages/astro/test/fixtures/multiple-jsx-renderers/renderers/{woof,meow}`
  (their `check` functions, which evaluate the filter against
  `metadata.componentUrl`);
* the first-match-wins `check()` loop of
  `packages/astro/src/runtime/server/render/component.ts`, as quoted in
  `plan2.md` / `PURPOSE.md` (on this branch the loop passes `metadata` as the
  fourth argument to `check`);
* the Preact console-error guard (`useConsoleFilter` / `finishUsingConsoleFilter`
  of `packages/integrations/preact/src/server.ts`, as quoted in `plan2.md`).

External collaborators that are not part of the repository are modelled
explicitly and conservatively: the `slash` path normalizer (backslash to
forward slash) and the `picomatch` glob compiler (restricted to the pattern
features the repository uses: literal characters, `*`, `**`, with `dot: true`).
JavaScript `RegExp` objects are modelled with their mutable `lastIndex` cursor
so that the statelessness of the filter is a theorem, not an assumption.
-/

/-- The reserved null-separator sentinel `'\0'` used for virtual module ids. -/
def nullChar : Char := Char.ofNat 0

/-- Modelled from the spec: the `slash` helper of `internal-helpers/src/path.js`
(not included in the sources) "normalizes path separators to a single canonical
form": every backslash becomes a forward slash. Character-level step. -/
def slashChar (c : Char) : Char := if c == '\\' then '/' else c

/-- Modelled from the spec: `normalizePath` (the `slash` import in
`create-filter.ts`) replaces every `\` with `/`. -/
def normalizePath (s : String) : String := ⟨s.data.map slashChar⟩

/-- Model of JavaScript `String.prototype.includes` for a single character,
as used by `id.includes('\0')` in `createFilter`. -/
def jsIncludes (s : String) (c : Char) : Bool := s.data.contains c

/-- Split a character list at every `'/'`; the segment view of a path used by
the glob-matcher model. Always returns at least one (possibly empty) segment. -/
def splitSeg : List Char → List (List Char)
  | [] => [[]]
  | c :: cs =>
    if c == '/' then [] :: splitSeg cs
    else
      match splitSeg cs with
      | [] => [[c]]
      | s :: ss => (c :: s) :: ss

/-- Glob matching of one path segment: `'*'` matches any (possibly empty) run
of characters inside the segment, any other character matches itself.
Part of the model of the external `picomatch` compiler (with `dot: true`,
dotfiles get no special treatment). -/
def segMatch : List Char → List Char → Bool
  | [], cs => cs.isEmpty
  | p :: ps, cs =>
    if p == '*' then cs.tails.any (fun suf => segMatch ps suf)
    else
      match cs with
      | [] => false
      | c :: cs2 => (p == c) && segMatch ps cs2

/-- Glob matching of a segment list against a pattern segment list: the
pattern segment `**` matches any (possibly empty) run of whole path segments;
every other pattern segment must match exactly one path segment via
`segMatch`. Part of the `picomatch` model. -/
def segsMatch : List (List Char) → List (List Char) → Bool
  | [], segs => segs.isEmpty
  | p :: ps, segs =>
    if p == ['*', '*'] then segs.tails.any (fun suf => segsMatch ps suf)
    else
      match segs with
      | [] => false
      | s :: rest => segMatch p s && segsMatch ps rest

/-- Model of the matcher produced by the external
`picomatch(pattern, { dot: true })` call in `toMatcher`, restricted to the
glob features the repository's patterns use (`*`, `**`, literals). -/
def picomatchDot (pattern s : String) : Bool :=
  segsMatch (splitSeg pattern.data) (splitSeg s.data)

/-- Semantics of a JavaScript `RegExp` object: `global` is true when the
`g` (or `y`) flag makes `test` consult and update the mutable `lastIndex`
cursor; `search s i` returns `some e` when a match starting the search at
index `i` ends at index `e`. -/
structure RegExpSem where
  global : Bool
  search : String → Nat → Option Nat

/-- A single include/exclude pattern of `create-filter.ts`: a glob string or a
`RegExp`. -/
inductive SourcePattern where
  | glob : String → SourcePattern
  | regexp : RegExpSem → SourcePattern

/-- The `FilterPattern` argument type of `createFilter`:
`ReadonlyArray<string | RegExp> | string | RegExp | null`, with `undefined`
for an omitted argument. -/
inductive FilterPattern where
  | arr : List SourcePattern → FilterPattern
  | single : SourcePattern → FilterPattern
  | nullv : FilterPattern
  | undef : FilterPattern

/-- `ensureArray` of `create-filter.ts`: arrays pass through, `null` and
`undefined` become `[]`, a lone pattern becomes a one-element array. -/
def ensureArray : FilterPattern → List SourcePattern
  | .arr ps => ps
  | .single p => [p]
  | .nullv => []
  | FilterPattern.undef => []

/-- A compiled matcher: either the caller's `RegExp` object, or the
picomatch-backed object `{ test: (what) => fn(what) }` built from the
normalized glob string. -/
inductive Matcher where
  | regex : RegExpSem → Matcher
  | globm : String → Matcher

/-- `toMatcher` of `create-filter.ts`: a `RegExp` is used as-is, a glob string
is normalized and compiled with `picomatch(normalized, { dot: true })`. -/
def toMatcher : SourcePattern → Matcher
  | .regexp r => .regex r
  | .glob g => .globm (normalizePath g)

/-- The data captured by the closure `createFilter` returns: the compiled
include and exclude matcher lists. -/
structure FilterF where
  includeMs : List Matcher
  excludeMs : List Matcher

/-- `createFilter` of `create-filter.ts` (closure construction part):
`includeMatchers` and `excludeMatchers` from `ensureArray(...).map(toMatcher)`.
(`include` is a Lean keyword, hence the `Arg` suffix on the parameters.) -/
def createFilter (includeArg excludeArg : FilterPattern) : FilterF :=
  { includeMs := (ensureArray includeArg).map toMatcher
  , excludeMs := (ensureArray excludeArg).map toMatcher }

/-- The mutable `lastIndex` cursors of the `RegExp` matchers, one list per
matcher list (position `i` holds the cursor of matcher `i`; positions of
non-`RegExp` matchers are ignored). -/
structure FilterState where
  exLI : List Nat
  inLI : List Nat

/-- JavaScript semantics of `regex.test(s)` from cursor `li`: a non-global
regex searches from 0 and leaves `lastIndex` alone; a global regex searches
from `lastIndex`, sets it to the match end on success and resets it to 0 on
failure. Returns the outcome and the new `lastIndex`. -/
def regexTestFrom (r : RegExpSem) (li : Nat) (s : String) : Bool × Nat :=
  if r.global then
    match r.search s li with
    | some e => (true, e)
    | none => (false, 0)
  else
    ((r.search s 0).isSome, li)

/-- One iteration of the matcher loops in `createFilter`'s returned function:
`if (matcher instanceof RegExp) matcher.lastIndex = 0;` followed by
`matcher.test(pathId)`. -/
def loopTestMatcher : Matcher → Nat → String → Bool × Nat
  | .regex r, _, s => regexTestFrom r 0 s
  | .globm g, li, s => (picomatchDot g s, li)

/-- The `for (const matcher of ...)` loops of `createFilter`: test each
matcher in order (resetting `lastIndex` first), short-circuiting on the first
match; returns whether some matcher matched together with the updated
cursors. -/
def runMatchers (s : String) : List Matcher → List Nat → Bool × List Nat
  | [], lis => (false, lis)
  | m :: ms, lis =>
    let r1 := loopTestMatcher m (lis.headD 0) s
    if r1.fst then (true, r1.snd :: lis.tail)
    else
      let r2 := runMatchers s ms lis.tail
      (r2.fst, r1.snd :: r2.snd)

/-- The string-or-not argument of the returned matcher
(`id: string | unknown`). -/
inductive JSInput where
  | str : String → JSInput
  | nonString : JSInput

/-- The function returned by `createFilter`, with the `RegExp` cursor state
made explicit: the fast path `(id) => typeof id === 'string' && !id.includes('\0')`
when no patterns were supplied, otherwise the non-string and null-byte
rejections, normalization, the exclude loop (any match ⇒ `false`), the include
loop (any match ⇒ `true`), and the trailing `return !includeMatchers.length`. -/
def filterTest (f : FilterF) (st : FilterState) (id : JSInput) : Bool × FilterState :=
  if f.includeMs.isEmpty && f.excludeMs.isEmpty then
    match id with
    | .str s => (!(jsIncludes s nullChar), st)
    | .nonString => (false, st)
  else
    match id with
    | .nonString => (false, st)
    | .str s =>
      if jsIncludes s nullChar then (false, st)
      else
        let pathId := normalizePath s
        let ex := runMatchers pathId f.excludeMs st.exLI
        if ex.fst then (false, ⟨ex.snd, st.inLI⟩)
        else
          let inc := runMatchers pathId f.includeMs st.inLI
          if inc.fst then (true, ⟨ex.snd, inc.snd⟩)
          else (f.includeMs.isEmpty, ⟨ex.snd, inc.snd⟩)

/-- A sequence of calls to one filter closure, threading the `RegExp` cursor
state from call to call; returns the list of results and the final state. -/
def filterRunSeq (f : FilterF) : FilterState → List JSInput → List Bool × FilterState
  | st, [] => ([], st)
  | st, id :: ids =>
    let r := filterTest f st id
    let rest := filterRunSeq f r.snd ids
    (r.fst :: rest.fst, rest.snd)

/-- The state-free outcome of testing one matcher: for a `RegExp` the search
from index 0 (which is what the loop's `lastIndex = 0` reset enforces), for a
glob the picomatch result. -/
def matcherAccepts : Matcher → String → Bool
  | .regex r, s => (r.search s 0).isSome
  | .globm g, s => picomatchDot g s

/-- Some matcher in the list accepts the (already normalized) string. -/
def anyMatcher (ms : List Matcher) (s : String) : Bool :=
  ms.any (fun m => matcherAccepts m s)

/-- The idealized stateless value of the filter on an input; the bridge lemma
`filterTest_fst` proves the stateful closure always returns this value. -/
def filterPure (f : FilterF) (id : JSInput) : Bool :=
  if f.includeMs.isEmpty && f.excludeMs.isEmpty then
    match id with
    | .str s => !(jsIncludes s nullChar)
    | .nonString => false
  else
    match id with
    | .nonString => false
    | .str s =>
      if jsIncludes s nullChar then false
      else
        let pathId := normalizePath s
        if anyMatcher f.excludeMs pathId then false
        else if anyMatcher f.includeMs pathId then true
        else f.includeMs.isEmpty

theorem fst_loopTestMatcher (m : Matcher) (li : Nat) (s : String) :
    (loopTestMatcher m li s).fst = matcherAccepts m s := by
  cases m with
  | regex r =>
    cases hg : r.global with
    | false => simp [loopTestMatcher, regexTestFrom, hg, matcherAccepts]
    | true =>
      simp only [loopTestMatcher, regexTestFrom, hg, ite_true, matcherAccepts]
      cases hs : r.search s 0 <;> simp [hs]
  | globm g => rfl

theorem fst_runMatchers (s : String) (ms : List Matcher) (lis : List Nat) :
    (runMatchers s ms lis).fst = anyMatcher ms s := by
  induction ms generalizing lis with
  | nil => rfl
  | cons m ms ih =>
    have hm := fst_loopTestMatcher m (lis.headD 0) s
    simp only [runMatchers, anyMatcher, List.any_cons]
    cases h : (loopTestMatcher m (lis.headD 0) s).fst with
    | true =>
      rw [h] at hm
      simp [← hm]
    | false =>
      rw [h] at hm
      simp [ih lis.tail, anyMatcher, ← hm]

theorem filterTest_fst (f : FilterF) (st : FilterState) (id : JSInput) :
    (filterTest f st id).fst = filterPure f id := by
  by_cases hfast : (f.includeMs.isEmpty && f.excludeMs.isEmpty) = true
  · cases id <;> simp [filterTest, filterPure, hfast]
  · cases id with
    | nonString => simp [filterTest, filterPure, hfast]
    | str s =>
      by_cases hnull : jsIncludes s nullChar = true
      · simp [filterTest, filterPure, hfast, hnull]
      · simp only [Bool.not_eq_true] at hnull
        simp only [filterTest, filterPure, hfast, hnull, Bool.false_eq_true, ite_false,
          if_pos, if_neg]
        by_cases hex : anyMatcher f.excludeMs (normalizePath s) = true
        · simp [← fst_runMatchers (normalizePath s) f.excludeMs st.exLI] at hex
          simp [hex, ← fst_runMatchers (normalizePath s) f.excludeMs st.exLI,
            fst_runMatchers]
        · simp only [Bool.not_eq_true] at hex
          have hex' : (runMatchers (normalizePath s) f.excludeMs st.exLI).fst = false := by
            rw [fst_runMatchers]; exact hex
          by_cases hin : anyMatcher f.includeMs (normalizePath s) = true
          · have hin' : (runMatchers (normalizePath s) f.includeMs st.inLI).fst = true := by
              rw [fst_runMatchers]; exact hin
            simp [hex, hex', hin, hin']
          · simp only [Bool.not_eq_true] at hin
            have hin' : (runMatchers (normalizePath s) f.includeMs st.inLI).fst = false := by
              rw [fst_runMatchers]; exact hin
            simp [hex, hex', hin, hin']

/-- Hydration directives of `ComponentMetadata`
(`none` means no `client:*` directive was present). -/
inductive HydrationDirective where
  | none | load | idle | visible | media | only
deriving DecidableEq

/-- The slice of the resolver's `metadata` object the renderer `check`
functions consume: the directive and the optional `componentUrl`
(populated from `client:component-path` only for hydrated components). -/
structure ComponentMetadata where
  directive : HydrationDirective
  componentUrl : Option String

/-- A JavaScript component value as far as `typeof Component !== 'function'`
can distinguish it: a function (with an arbitrary identity tag) or any
non-function value (with an arbitrary tag). -/
inductive ComponentValue where
  | func : Nat → ComponentValue
  | nonFunc : Nat → ComponentValue

/-- Truthiness of a `FilterPattern` value, as tested by
`(opts.include || opts.exclude)` in the fixture server modules: `null` and
`undefined` are falsy, the empty string is falsy, arrays and `RegExp`
objects are truthy. -/
def filterPatternTruthy : FilterPattern → Bool
  | .nullv => false
  | FilterPattern.undef => false
  | .arr _ => true
  | .single (.glob g) => !(g == "")
  | .single (.regexp _) => true

/-- The `check` function shared by the `woof` and `meow` fixture renderers
(`woof/index.mjs` lines 63-69, `meow/meow-server.mjs` lines 11-17):

```
async check(Component, _props, _slots, metadata) {
  if (typeof Component !== 'function') return false;
  if (filter && metadata?.componentUrl && !filter(metadata.componentUrl)) {
    return false;
  }
  return true;
}
```

`filter?` is the module-scope filter (or `null`). The truthiness test
`metadata?.componentUrl` skips the filter when `metadata` is absent, when
`componentUrl` is absent, and when it is the empty string. The filter call's
Boolean value is state-independent (theorem `filterTest_fst`), so the model
evaluates it with `filterPure`. -/
def fixtureCheck {P S : Type} (filterOpt : Option FilterF) (Component : ComponentValue)
    (_props : P) (_slots : S) (metadata : Option ComponentMetadata) : Bool :=
  match Component with
  | .nonFunc _ => false
  | .func _ =>
    match filterOpt with
    | Option.none => true
    | Option.some f =>
      match metadata with
      | Option.none => true
      | Option.some md =>
        match md.componentUrl with
        | Option.none => true
        | Option.some url =>
          if url == "" then true
          else filterPure f (.str url)

/-- A renderer descriptor as the `check()` loop sees it: a name and the
`ssr.check` capability. `P` and `S` are the (opaque) types of the `props`
and `children` arguments, which the loop forwards untouched. -/
structure RendererDesc (P S : Type) where
  name : String
  check : ComponentValue → P → S → Option ComponentMetadata → Bool

/-- A fixture renderer module: the module-scope line
`const filter = (opts.include || opts.exclude) ? createFilter(opts.include, opts.exclude) : null;`
followed by the shared `check`. -/
def rendererOf {P S : Type} (name : String) (includeArg excludeArg : FilterPattern) :
    RendererDesc P S :=
  { name := name
  , check := fixtureCheck
      (if filterPatternTruthy includeArg || filterPatternTruthy excludeArg then
        Option.some (createFilter includeArg excludeArg)
      else Option.none) }

/-- The probabilistic probe loop of
`packages/astro/src/runtime/server/render/component.ts` (quoted in
`PURPOSE.md`; on this branch the loop passes `metadata` as the 4th argument):

```
for (const r of renderers) {
    if (await r.ssr.check.call({ result }, Component, props, children, metadata)) {
        renderer = r;
        break; // first match wins
    }
}
```

`List.find?` is exactly this first-match-wins iteration. -/
def findRenderer {P S : Type} (renderers : List (RendererDesc P S)) (Component : ComponentValue)
    (props : P) (children : S) (metadata : Option ComponentMetadata) :
    Option (RendererDesc P S) :=
  renderers.find? (fun r => r.check Component props children metadata)

/-- The renderers whose `check` the loop actually invokes during one
resolution: every renderer up to and including the first accepting one
(all of them when none accepts). -/
def probedRenderers {P S : Type} : List (RendererDesc P S) → ComponentValue → P → S →
    Option ComponentMetadata → List (RendererDesc P S)
  | [], _, _, _, _ => []
  | r :: rest, Component, props, children, metadata =>
    if r.check Component props children metadata then [r]
    else r :: probedRenderers rest Component props children metadata

/-- How many times the loop invokes the `check` capability of the renderers
with the given name during one resolution. -/
def countCheckCalls {P S : Type} (renderers : List (RendererDesc P S)) (Component : ComponentValue)
    (props : P) (children : S) (metadata : Option ComponentMetadata) (name : String) : Nat :=
  (probedRenderers renderers Component props children metadata).countP
    (fun r => r.name == name)

/-- Renderer A of the include-partitioned scenario: `woof({ include: '**/a/*' })`. -/
def woofA {P S : Type} : RendererDesc P S :=
  rendererOf "woof" (.single (.glob "**/a/*")) FilterPattern.undef

/-- Renderer B of the include-partitioned scenario: `meow({ include: '**/b/*' })`. -/
def meowB {P S : Type} : RendererDesc P S :=
  rendererOf "meow" (.single (.glob "**/b/*")) FilterPattern.undef

/-- The finalized registry of the scenario, in registration order [A, B]. -/
def registryAB {P S : Type} : List (RendererDesc P S) := [woofA, meowB]

/-- The operations on the Preact console-error guard:
`useConsoleFilter()` and `finishUsingConsoleFilter()`. -/
inductive GuardOp where
  | use | release

/-- The guard's process-wide state
(`packages/integrations/preact/src/server.ts`, quoted in `plan2.md`):
`refs` models `consoleFilterRefs` and `installed` models
`originalConsoleError` being set (i.e. `console.error` hooked). -/
structure ConsoleGuardState where
  refs : Int
  installed : Bool
deriving DecidableEq, Repr

/-- One guard operation. `use`: `consoleFilterRefs++`, then install the hook
if `originalConsoleError` is not yet set. `release`: `consoleFilterRefs--`
and — deliberately — nothing else (the hook stays installed). -/
def guardStep (s : ConsoleGuardState) : GuardOp → ConsoleGuardState
  | .use =>
    let s1 : ConsoleGuardState := { s with refs := s.refs + 1 }
    if s1.installed then s1 else { s1 with installed := true }
  | .release => { s with refs := s.refs - 1 }

/-- A whole history of guard operations. -/
def guardRun (s : ConsoleGuardState) (ops : List GuardOp) : ConsoleGuardState :=
  ops.foldl guardStep s

theorem guardStep_installed_mono (s : ConsoleGuardState) (op : GuardOp)
    (h : s.installed = true) : (guardStep s op).installed = true := by
  cases op with
  | use => simp [guardStep, h]
  | release => simpa [guardStep] using h

theorem guardRun_installed_mono (ops : List GuardOp) (s : ConsoleGuardState)
    (h : s.installed = true) : (guardRun s ops).installed = true := by
  induction ops generalizing s with
  | nil => simpa [guardRun] using h
  | cons op ops ih =>
    simpa [guardRun] using ih (guardStep s op) (guardStep_installed_mono s op h)

theorem segMatch_star (f : List Char) : segMatch ['*'] f = true := by
  have e : (('*' : Char) == '*') = true := by decide
  simp only [segMatch, e, if_true, List.any_eq_true]
  exact ⟨[], (List.mem_tails [] f).mpr List.nil_suffix, by simp⟩

theorem segsMatch_star_nil : segsMatch [['*']] ([] : List (List Char)) = false := by
  decide

theorem segsMatch_tail_pair (x y f : List Char) (hx : (x == ['*', '*']) = false)
    (hxy : segMatch x y = true) : segsMatch [x, ['*']] [y, f] = true := by
  have e1 : ((['*'] : List Char) == ['*', '*']) = false := by decide
  simp [segsMatch, hx, e1, hxy, segMatch_star f]

theorem segsMatch_glob_last_two (x y f : List Char) (L : List (List Char))
    (hx : (x == ['*', '*']) = false) (hxy : segMatch x y = true) :
    segsMatch [['*', '*'], x, ['*']] (L ++ [y, f]) = true := by
  have e2 : ((['*', '*'] : List Char) == ['*', '*']) = true := by decide
  simp only [segsMatch, e2, if_true, List.any_eq_true]
  exact ⟨[y, f], (List.mem_tails [y, f] (L ++ [y, f])).mpr (List.suffix_append L [y, f]),
    segsMatch_tail_pair x y f hx hxy⟩

theorem segsMatch_glob_last_two_ne (x y f : List Char) (L : List (List Char))
    (hx : (x == ['*', '*']) = false) (hxy : segMatch x y = false) :
    segsMatch [['*', '*'], x, ['*']] (L ++ [y, f]) = false := by
  have e1 : ((['*'] : List Char) == ['*', '*']) = false := by decide
  have e2 : ((['*', '*'] : List Char) == ['*', '*']) = true := by decide
  simp only [segsMatch, e2, if_true, List.any_eq_false]
  intro suf hsuf
  obtain ⟨t, ht⟩ := (List.mem_tails suf (L ++ [y, f])).mp hsuf
  match suf with
  | [] => simp [segsMatch, hx]
  | [s1] => simp [segsMatch, hx, e1]
  | s1 :: s2 :: r3 :: rest => simp [segsMatch, hx, e1]
  | [s1, s2] =>
    have h := congrArg List.reverse ht
    simp only [List.reverse_append, List.reverse_cons, List.reverse_nil, List.nil_append,
      List.cons_append, List.cons.injEq] at h
    obtain ⟨h2, h1, _⟩ := h
    subst h1
    subst h2
    simp [segsMatch, hx, e1, hxy]

theorem splitSeg_ne_nil (cs : List Char) : splitSeg cs ≠ [] := by
  induction cs with
  | nil => simp [splitSeg]
  | cons c cs ih =>
    cases hsp : splitSeg cs with
    | nil => exact absurd hsp ih
    | cons s ss => by_cases h : (c == '/') = true <;> simp [splitSeg, h, hsp]

theorem splitSeg_no_slash (cs : List Char) (h : '/' ∉ cs) : splitSeg cs = [cs] := by
  induction cs with
  | nil => rfl
  | cons c cs ih =>
    have hc : (c == '/') = false := by
      refine beq_eq_false_iff_ne.mpr fun he => h ?_
      rw [he]; exact List.mem_cons_self '/' cs
    have ih' := ih fun hm => h (List.mem_cons_of_mem c hm)
    simp [splitSeg, hc, ih']

theorem splitSeg_append_slash (p ys : List Char) :
    ∃ L, L ≠ [] ∧ splitSeg (p ++ '/' :: ys) = L ++ splitSeg ys := by
  induction p with
  | nil => exact ⟨[[]], by simp, by simp [splitSeg]⟩
  | cons c p ih =>
    obtain ⟨L, hL, hsp⟩ := ih
    by_cases hc : (c == '/') = true
    · exact ⟨[] :: L, by simp, by simp [splitSeg, hc, hsp]⟩
    · cases L with
      | nil => exact absurd rfl hL
      | cons l0 ls =>
        refine ⟨(c :: l0) :: ls, by simp, ?_⟩
        have hsp' : splitSeg (p ++ '/' :: ys) = l0 :: (ls ++ splitSeg ys) := by
          simpa using hsp
        simp only [List.cons_append, splitSeg, hc, Bool.false_eq_true, if_false]
        rw [show List.append p ('/' :: ys) = p ++ '/' :: ys from rfl, hsp']

theorem splitSeg_under (p f : List Char) (c : Char) (hc : (c == '/') = false)
    (hf : '/' ∉ f) : ∃ L, splitSeg (p ++ '/' :: c :: '/' :: f) = L ++ [[c], f] := by
  obtain ⟨L, _, h⟩ := splitSeg_append_slash p (c :: '/' :: f)
  refine ⟨L, ?_⟩
  rw [h]
  have hslash : (('/' : Char) == '/') = true := by decide
  simp [splitSeg, hc, hslash, splitSeg_no_slash f hf]

theorem map_slashChar_id (cs : List Char) (h : '\\' ∉ cs) : cs.map slashChar = cs := by
  induction cs with
  | nil => rfl
  | cons c cs ih =>
    have hc : (c == '\\') = false := by
      refine beq_eq_false_iff_ne.mpr fun he => h ?_
      rw [← he]; exact List.mem_cons_self c cs
    simp [slashChar, hc, ih fun hm => h (List.mem_cons_of_mem c hm)]

theorem normalizePath_eq_self (s : String) (h : '\\' ∉ s.data) : normalizePath s = s := by
  cases s with
  | mk data => simp only [normalizePath, map_slashChar_id data h]

theorem jsIncludes_eq_false (s : String) (c : Char) (h : c ∉ s.data) :
    jsIncludes s c = false := by
  cases hc : jsIncludes s c
  · rfl
  · exact absurd (by simpa [jsIncludes] using hc) h

theorem excludeMs_createFilter (includeArg excludeArg : FilterPattern) :
    (createFilter includeArg excludeArg).excludeMs = (ensureArray excludeArg).map toMatcher :=
  rfl

theorem includeMs_createFilter (includeArg excludeArg : FilterPattern) :
    (createFilter includeArg excludeArg).includeMs = (ensureArray includeArg).map toMatcher :=
  rfl

theorem anyMatcher_of_mem (ms : List Matcher) (s : String) (m : Matcher)
    (hm : m ∈ ms) (hacc : matcherAccepts m s = true) : anyMatcher ms s = true := by
  simp only [anyMatcher, List.any_eq_true]
  exact ⟨m, hm, hacc⟩

/-- Claim C2: for every string that matches at least one include pattern and at
least one exclude pattern of a filter built by `createFilter`, the filter
returns `false` — the exclude loop runs first and wins unconditionally. -/
theorem createFilter_exclude_wins (includeArg excludeArg : FilterPattern)
    (st : FilterState) (s : String)
    (hInc : ∃ p ∈ ensureArray includeArg,
      matcherAccepts (toMatcher p) (normalizePath s) = true)
    (hExc : ∃ p ∈ ensureArray excludeArg,
      matcherAccepts (toMatcher p) (normalizePath s) = true) :
    (filterTest (createFilter includeArg excludeArg) st (.str s)).fst = false := by
  rw [filterTest_fst]
  obtain ⟨p, hp, hacc⟩ := hExc
  have hExcAny : anyMatcher (createFilter includeArg excludeArg).excludeMs
      (normalizePath s) = true :=
    anyMatcher_of_mem _ _ (toMatcher p)
      (by rw [excludeMs_createFilter]; exact List.mem_map_of_mem toMatcher hp) hacc
  have hne : (createFilter includeArg excludeArg).excludeMs ≠ [] := by
    intro h0
    rw [h0] at hExcAny
    simp [anyMatcher] at hExcAny
  have hfast : ((createFilter includeArg excludeArg).includeMs.isEmpty &&
      (createFilter includeArg excludeArg).excludeMs.isEmpty) = false := by
    cases hE : (createFilter includeArg excludeArg).excludeMs with
    | nil => exact absurd hE hne
    | cons m ms => simp [hE]
  by_cases hnull : jsIncludes s nullChar = true
  · simp [filterPure, hfast, hnull]
  · simp only [Bool.not_eq_true] at hnull
    simp [filterPure, hfast, hnull, hExcAny]

/-- Witness for C2 at `include = 'a*'`, `exclude = '*b'`, input `"ab"`:
both patterns match, and the filter rejects. -/
theorem createFilter_exclude_wins_witness :
    (∃ p ∈ ensureArray (.single (.glob "a*")),
      matcherAccepts (toMatcher p) (normalizePath "ab") = true)
  ∧ (∃ p ∈ ensureArray (.single (.glob "*b")),
      matcherAccepts (toMatcher p) (normalizePath "ab") = true)
  ∧ (filterTest (createFilter (.single (.glob "a*")) (.single (.glob "*b")))
      ⟨[], []⟩ (.str "ab")).fst = false :=
  ⟨by decide, by decide,
    createFilter_exclude_wins (.single (.glob "a*")) (.single (.glob "*b"))
      ⟨[], []⟩ "ab" (by decide) (by decide)⟩

/-- Claim C3: with no include patterns supplied at all, a non-null-byte string
matching no exclude pattern passes (`true`); with at least one include pattern
supplied and none matching, the filter returns `false`. -/
theorem createFilter_pass_through (includeArg excludeArg : FilterPattern)
    (st : FilterState) (s : String) :
    (ensureArray includeArg = [] →
      jsIncludes s nullChar = false →
      anyMatcher (createFilter includeArg excludeArg).excludeMs (normalizePath s) = false →
      (filterTest (createFilter includeArg excludeArg) st (.str s)).fst = true)
  ∧ (ensureArray includeArg ≠ [] →
      anyMatcher (createFilter includeArg excludeArg).includeMs (normalizePath s) = false →
      (filterTest (createFilter includeArg excludeArg) st (.str s)).fst = false) := by
  constructor
  · intro hinc hnull hexc
    rw [filterTest_fst]
    have hIncMs : (createFilter includeArg excludeArg).includeMs = [] := by
      rw [includeMs_createFilter, hinc]; rfl
    by_cases hfast : ((createFilter includeArg excludeArg).includeMs.isEmpty &&
        (createFilter includeArg excludeArg).excludeMs.isEmpty) = true
    · simp [filterPure, hfast, hnull]
    · simp only [Bool.not_eq_true] at hfast
      have hany_nil : anyMatcher [] (normalizePath s) = false := rfl
      simp [filterPure, hfast, hnull, hexc, hIncMs, hany_nil]
  · intro hinc hincAny
    rw [filterTest_fst]
    have hIncNe : (createFilter includeArg excludeArg).includeMs ≠ [] := by
      rw [includeMs_createFilter]
      intro h0
      exact hinc (List.map_eq_nil_iff.mp h0)
    have hfast : ((createFilter includeArg excludeArg).includeMs.isEmpty &&
        (createFilter includeArg excludeArg).excludeMs.isEmpty) = false := by
      cases hI : (createFilter includeArg excludeArg).includeMs with
      | nil => exact absurd hI hIncNe
      | cons m ms => simp [hI]
    have hIncEmpty : (createFilter includeArg excludeArg).includeMs.isEmpty = false := by
      cases hI : (createFilter includeArg excludeArg).includeMs with
      | nil => exact absurd hI hIncNe
      | cons m ms => rfl
    by_cases hnull : jsIncludes s nullChar = true
    · simp [filterPure, hfast, hnull]
    · simp only [Bool.not_eq_true] at hnull
      by_cases hexc : anyMatcher (createFilter includeArg excludeArg).excludeMs
          (normalizePath s) = true
      · simp [filterPure, hfast, hnull, hexc]
      · simp only [Bool.not_eq_true] at hexc
        simp [filterPure, hfast, hnull, hexc, hincAny, hIncEmpty]

/-- Witness for C3: pass-through with no includes on `"xa"` (exclude `'*b'`
does not match), and rejection with include `'a*'` not matching `"zz"`. -/
theorem createFilter_pass_through_witness :
    (filterTest (createFilter FilterPattern.undef (.single (.glob "*b"))) ⟨[], []⟩ (.str "xa")).fst = true
  ∧ (filterTest (createFilter (.single (.glob "a*")) FilterPattern.undef) ⟨[], []⟩ (.str "zz")).fst
      = false :=
  ⟨(createFilter_pass_through FilterPattern.undef (.single (.glob "*b")) ⟨[], []⟩ "xa").1
      rfl (by decide) (by decide),
   (createFilter_pass_through (.single (.glob "a*")) FilterPattern.undef ⟨[], []⟩ "zz").2
      (by simp [ensureArray]) (by decide)⟩

/-- Claim C4: the matcher returned by `createFilter` is total — it always
returns a Boolean (it is a total function of its input), every non-string
input yields `false`, and every string containing the `'\0'` sentinel yields
`false`, for every include/exclude configuration (hence even when an include
pattern would otherwise match). -/
theorem createFilter_totality (includeArg excludeArg : FilterPattern) (st : FilterState) :
    (∀ id, (filterTest (createFilter includeArg excludeArg) st id).fst = true ∨
      (filterTest (createFilter includeArg excludeArg) st id).fst = false)
  ∧ (filterTest (createFilter includeArg excludeArg) st JSInput.nonString).fst = false
  ∧ (∀ s, jsIncludes s nullChar = true →
      (filterTest (createFilter includeArg excludeArg) st (JSInput.str s)).fst = false) := by
  refine ⟨fun id => ?_, ?_, fun s hnull => ?_⟩
  · cases h : (filterTest (createFilter includeArg excludeArg) st id).fst
    · exact Or.inr rfl
    · exact Or.inl rfl
  · rw [filterTest_fst]
    unfold filterPure
    split <;> rfl
  · rw [filterTest_fst]
    unfold filterPure
    split <;> simp [hnull]

/-- Witness for C4 at `include = '*'` (which matches the non-null part of the
input): a non-string input and the null-byte-bearing string are both
rejected. -/
theorem createFilter_totality_witness :
    jsIncludes "\x00x" nullChar = true
  ∧ (filterTest (createFilter (.single (.glob "*")) FilterPattern.undef) ⟨[], []⟩
      JSInput.nonString).fst = false
  ∧ (filterTest (createFilter (.single (.glob "*")) FilterPattern.undef) ⟨[], []⟩
      (.str "\x00x")).fst = false :=
  ⟨by decide,
   (createFilter_totality (.single (.glob "*")) FilterPattern.undef ⟨[], []⟩).2.1,
   (createFilter_totality (.single (.glob "*")) FilterPattern.undef ⟨[], []⟩).2.2 "\x00x" (by decide)⟩

/-- Claim C7: matchers built by `createFilter` are stateless across calls —
over any sequence of calls (threading the `RegExp` `lastIndex` cursors from
call to call), every call returns exactly what a single call from any other
cursor state (in particular a fresh one) would return on that input. -/
theorem filter_stateless (f : FilterF) (st st2 : FilterState) (ids : List JSInput) :
    (filterRunSeq f st ids).fst = ids.map (fun id => (filterTest f st2 id).fst) := by
  induction ids generalizing st with
  | nil => rfl
  | cons id ids ih =>
    have h1 : (filterTest f st id).fst = (filterTest f st2 id).fst := by
      rw [filterTest_fst, filterTest_fst]
    simp only [filterRunSeq, List.map_cons]
    rw [h1, ih]

/-- Claim C9: a lone (non-array) pattern behaves exactly as the one-element
pattern array, and `null`/`undefined` arguments behave as the empty pattern
array, on the include side and on the exclude side alike. -/
theorem createFilter_singleton_equiv (p : SourcePattern) (other : FilterPattern)
    (st : FilterState) (id : JSInput) :
    filterTest (createFilter (.single p) other) st id
        = filterTest (createFilter (.arr [p]) other) st id
  ∧ filterTest (createFilter other (.single p)) st id
        = filterTest (createFilter other (.arr [p])) st id
  ∧ filterTest (createFilter .nullv other) st id
        = filterTest (createFilter (.arr []) other) st id
  ∧ filterTest (createFilter FilterPattern.undef other) st id
        = filterTest (createFilter (.arr []) other) st id
  ∧ filterTest (createFilter other .nullv) st id
        = filterTest (createFilter other (.arr [])) st id
  ∧ filterTest (createFilter other FilterPattern.undef) st id
        = filterTest (createFilter other (.arr [])) st id :=
  ⟨rfl, rfl, rfl, rfl, rfl, rfl⟩

theorem woofA_check_def {P S : Type} : (woofA : RendererDesc P S).check
    = fixtureCheck (Option.some (createFilter (.single (.glob "**/a/*")) FilterPattern.undef)) := rfl

theorem meowB_check_def {P S : Type} : (meowB : RendererDesc P S).check
    = fixtureCheck (Option.some (createFilter (.single (.glob "**/b/*")) FilterPattern.undef)) := rfl

theorem filterPure_single_glob (g url : String) (hnull : jsIncludes url nullChar = false) :
    filterPure (createFilter (.single (.glob g)) FilterPattern.undef) (.str url)
      = picomatchDot (normalizePath g) (normalizePath url) := by
  have h1 : createFilter (.single (.glob g)) FilterPattern.undef
      = ⟨[.globm (normalizePath g)], []⟩ := rfl
  rw [h1]
  have hany_nil : anyMatcher [] (normalizePath url) = false := rfl
  simp only [filterPure, List.isEmpty_cons, List.isEmpty_nil, Bool.false_and,
    Bool.false_eq_true, if_false, hnull, hany_nil]
  cases hpm : picomatchDot (normalizePath g) (normalizePath url) <;>
    simp [anyMatcher, matcherAccepts, hpm]

theorem fixtureCheck_func_url {P S : Type} (f : FilterF) (n : Nat) (props : P) (slots : S)
    (d : HydrationDirective) (url : String) (hne : url ≠ "") :
    fixtureCheck (Option.some f) (ComponentValue.func n) props slots
      (Option.some ⟨d, Option.some url⟩) = filterPure f (.str url) := by
  have hbeq : (url == "") = false := beq_eq_false_iff_ne.mpr hne
  simp [fixtureCheck, hbeq]

theorem woofA_check_eval {P S : Type} (props : P) (slots : S) (n : Nat)
    (d : HydrationDirective) (url : String) (hne : url ≠ "")
    (hnull : jsIncludes url nullChar = false) :
    (woofA : RendererDesc P S).check (ComponentValue.func n) props slots
      (Option.some ⟨d, Option.some url⟩) = picomatchDot "**/a/*" (normalizePath url) := by
  rw [woofA_check_def, fixtureCheck_func_url _ n props slots d url hne,
    filterPure_single_glob _ url hnull]
  have hg : normalizePath "**/a/*" = "**/a/*" := by decide
  rw [hg]

theorem meowB_check_eval {P S : Type} (props : P) (slots : S) (n : Nat)
    (d : HydrationDirective) (url : String) (hne : url ≠ "")
    (hnull : jsIncludes url nullChar = false) :
    (meowB : RendererDesc P S).check (ComponentValue.func n) props slots
      (Option.some ⟨d, Option.some url⟩) = picomatchDot "**/b/*" (normalizePath url) := by
  rw [meowB_check_def, fixtureCheck_func_url _ n props slots d url hne,
    filterPure_single_glob _ url hnull]
  have hg : normalizePath "**/b/*" = "**/b/*" := by decide
  rw [hg]

/-- Claim C5: with renderers A (`include '**/a/*'`) and B (`include '**/b/*'`)
registered in order [A, B], first-match-wins resolution over their `check`
functions selects A for every function component with hydration directive
`load` whose `componentUrl` lies directly under an `a/` directory, and B for
every such component under a `b/` directory. -/
theorem resolver_two_renderers_partition {P S : Type} (props : P) (slots : S) (n : Nat)
    (url : String) (p f : List Char) :
    (url.data = p ++ '/' :: 'a' :: '/' :: f → '/' ∉ f → f ≠ [] →
      '\\' ∉ url.data → nullChar ∉ url.data →
      findRenderer (registryAB : List (RendererDesc P S)) (ComponentValue.func n) props slots
        (Option.some ⟨HydrationDirective.load, Option.some url⟩) = Option.some woofA)
  ∧ (url.data = p ++ '/' :: 'b' :: '/' :: f → '/' ∉ f → f ≠ [] →
      '\\' ∉ url.data → nullChar ∉ url.data →
      findRenderer (registryAB : List (RendererDesc P S)) (ComponentValue.func n) props slots
        (Option.some ⟨HydrationDirective.load, Option.some url⟩) = Option.some meowB) := by
  constructor
  · intro hurl hf hfne hb hn
    have hdne : url.data ≠ [] := by rw [hurl]; simp
    have hune : url ≠ "" := fun he => hdne (by rw [he])
    have hnull : jsIncludes url nullChar = false := jsIncludes_eq_false url nullChar hn
    have hnorm : normalizePath url = url := normalizePath_eq_self url hb
    obtain ⟨L, hsplit⟩ := splitSeg_under p f 'a' (by decide) hf
    have hwoof : (woofA : RendererDesc P S).check (ComponentValue.func n) props slots
        (Option.some ⟨HydrationDirective.load, Option.some url⟩) = true := by
      rw [woofA_check_eval props slots n _ url hune hnull, hnorm]
      unfold picomatchDot
      have hg : splitSeg "**/a/*".data = [['*', '*'], ['a'], ['*']] := by decide
      rw [hg, hurl, hsplit]
      exact segsMatch_glob_last_two ['a'] ['a'] f L (by decide) (by decide)
    show List.find? _ (woofA :: [meowB]) = Option.some woofA
    exact List.find?_cons_of_pos _ (by simpa using hwoof)
  · intro hurl hf hfne hb hn
    have hdne : url.data ≠ [] := by rw [hurl]; simp
    have hune : url ≠ "" := fun he => hdne (by rw [he])
    have hnull : jsIncludes url nullChar = false := jsIncludes_eq_false url nullChar hn
    have hnorm : normalizePath url = url := normalizePath_eq_self url hb
    obtain ⟨L, hsplit⟩ := splitSeg_under p f 'b' (by decide) hf
    have hwoof : (woofA : RendererDesc P S).check (ComponentValue.func n) props slots
        (Option.some ⟨HydrationDirective.load, Option.some url⟩) = false := by
      rw [woofA_check_eval props slots n _ url hune hnull, hnorm]
      unfold picomatchDot
      have hg : splitSeg "**/a/*".data = [['*', '*'], ['a'], ['*']] := by decide
      rw [hg, hurl, hsplit]
      exact segsMatch_glob_last_two_ne ['a'] ['b'] f L (by decide) (by decide)
    have hmeow : (meowB : RendererDesc P S).check (ComponentValue.func n) props slots
        (Option.some ⟨HydrationDirective.load, Option.some url⟩) = true := by
      rw [meowB_check_eval props slots n _ url hune hnull, hnorm]
      unfold picomatchDot
      have hg : splitSeg "**/b/*".data = [['*', '*'], ['b'], ['*']] := by decide
      rw [hg, hurl, hsplit]
      exact segsMatch_glob_last_two ['b'] ['b'] f L (by decide) (by decide)
    show List.find? _ (woofA :: [meowB]) = Option.some meowB
    rw [List.find?_cons_of_neg _ (by simpa using hwoof)]
    exact List.find?_cons_of_pos _ (by simpa using hmeow)

/-- Witness for C5 at the concrete hydrated components `/site/a/Foo.jsx` and
`/site/b/Bar.jsx`. -/
theorem resolver_two_renderers_partition_witness :
    findRenderer (registryAB : List (RendererDesc Unit Unit)) (ComponentValue.func 0) () ()
      (Option.some ⟨HydrationDirective.load, Option.some "/site/a/Foo.jsx"⟩)
      = Option.some woofA
  ∧ findRenderer (registryAB : List (RendererDesc Unit Unit)) (ComponentValue.func 0) () ()
      (Option.some ⟨HydrationDirective.load, Option.some "/site/b/Bar.jsx"⟩)
      = Option.some meowB :=
  ⟨(resolver_two_renderers_partition () () 0 "/site/a/Foo.jsx"
      "/site".data "Foo.jsx".data).1 (by decide) (by decide) (by decide)
      (by decide) (by decide),
   (resolver_two_renderers_partition () () 0 "/site/b/Bar.jsx"
      "/site".data "Bar.jsx".data).2 (by decide) (by decide) (by decide)
      (by decide) (by decide)⟩

/-- Claim C6: under the same include-partitioned registry [A, B], a function
component whose metadata has directive `none` (so `componentUrl` is absent)
bypasses every filter — every renderer's `check` accepts any function — and
first-match-wins resolution picks A, the first registrant. -/
theorem resolver_ssr_first_registrant_wins {P S : Type} (props : P) (slots : S) (n : Nat) :
    (∀ filterOpt : Option FilterF,
      fixtureCheck filterOpt (ComponentValue.func n) props slots
        (Option.some ⟨HydrationDirective.none, Option.none⟩) = true)
  ∧ findRenderer (registryAB : List (RendererDesc P S)) (ComponentValue.func n) props slots
      (Option.some ⟨HydrationDirective.none, Option.none⟩) = Option.some woofA := by
  constructor
  · intro filterOpt
    cases filterOpt <;> rfl
  · show List.find? _ (woofA :: [meowB]) = Option.some woofA
    exact List.find?_cons_of_pos _ (by simp [woofA_check_def, fixtureCheck])

/-- Claim C10: for every non-function component value, arbitrary props, slots
and metadata, the woof and meow `check` functions return `false` before any
filter evaluation — whatever the include/exclude configuration — so resolution
over these two renderers selects neither. -/
theorem resolver_nonfunction_never_selected {P S : Type} (props : P) (slots : S) (k : Nat)
    (i1 e1 i2 e2 : FilterPattern) (md : Option ComponentMetadata) :
    (rendererOf "woof" i1 e1 : RendererDesc P S).check (ComponentValue.nonFunc k)
        props slots md = false
  ∧ (rendererOf "meow" i2 e2 : RendererDesc P S).check (ComponentValue.nonFunc k)
        props slots md = false
  ∧ findRenderer [rendererOf "woof" i1 e1, rendererOf "meow" i2 e2]
      (ComponentValue.nonFunc k) props slots md = Option.none := by
  refine ⟨rfl, rfl, ?_⟩
  show List.find? _ (rendererOf "woof" i1 e1 :: [rendererOf "meow" i2 e2]) = Option.none
  rw [List.find?_cons_of_neg _ (by simp [rendererOf, fixtureCheck]),
    List.find?_cons_of_neg _ (by simp [rendererOf, fixtureCheck])]
  rfl

/-- Counterexample to claim C1 as stated: with woof's filter (`include
'**/a/*'`) rejecting the present `componentUrl` `/site/b/Bar.jsx`, the claim
asserts woof's check-call count stays zero for the resolution — but the filter
lives inside `check`, so the loop still invokes woof's `check` once (it
returns `false`); the count is 1, not 0. -/
theorem filter_reject_check_count_counterexample :
    filterPure (createFilter (.single (.glob "**/a/*")) FilterPattern.undef)
      (.str "/site/b/Bar.jsx") = false
  ∧ countCheckCalls (registryAB : List (RendererDesc Unit Unit)) (ComponentValue.func 0) () ()
      (Option.some ⟨HydrationDirective.load, Option.some "/site/b/Bar.jsx"⟩) "woof" = 1
  ∧ countCheckCalls (registryAB : List (RendererDesc Unit Unit)) (ComponentValue.func 0) () ()
      (Option.some ⟨HydrationDirective.load, Option.some "/site/b/Bar.jsx"⟩) "woof" ≠ 0 := by
  refine ⟨by decide, by decide, by decide⟩

/-- Claim C1 (amended): when a renderer carries a filter, `metadata.componentUrl`
is present (non-empty) and the filter rejects it, the renderer's `check`
returns `false` — skipping the renderer, which resolution never selects — but
the `check` capability itself is still invoked by the loop (the filter runs
inside `check`, so the call count is 1 when the loop reaches the renderer,
not 0). -/
theorem filter_reject_skips_renderer {P S : Type} (rs : List (RendererDesc P S))
    (r : RendererDesc P S) (f : FilterF) (Component : ComponentValue) (props : P) (slots : S)
    (md : ComponentMetadata) (url : String)
    (hcheck : r.check = fixtureCheck (Option.some f))
    (hurl : md.componentUrl = Option.some url) (hne : url ≠ "")
    (hrej : filterPure f (.str url) = false) :
    r.check Component props slots (Option.some md) = false
  ∧ findRenderer rs Component props slots (Option.some md) ≠ Option.some r := by
  have hfalse : r.check Component props slots (Option.some md) = false := by
    rw [hcheck]
    cases Component with
    | nonFunc k => rfl
    | func n =>
      cases md with
      | mk d cu =>
        have hcu : cu = Option.some url := hurl
        subst hcu
        rw [fixtureCheck_func_url f n props slots d url hne]
        exact hrej
  refine ⟨hfalse, fun hfind => ?_⟩
  have hp := List.find?_some hfind
  simp only at hp
  rw [hfalse] at hp
  exact Bool.false_ne_true hp

/-- Witness for the amended C1 at woof, component `/site/b/Bar.jsx`: woof's
check returns false and resolution does not select woof. -/
theorem filter_reject_skips_renderer_witness :
    (woofA : RendererDesc Unit Unit).check (ComponentValue.func 0) () ()
      (Option.some ⟨HydrationDirective.load, Option.some "/site/b/Bar.jsx"⟩) = false
  ∧ findRenderer (registryAB : List (RendererDesc Unit Unit)) (ComponentValue.func 0) () ()
      (Option.some ⟨HydrationDirective.load, Option.some "/site/b/Bar.jsx"⟩)
      ≠ Option.some woofA :=
  filter_reject_skips_renderer registryAB woofA
    (createFilter (.single (.glob "**/a/*")) FilterPattern.undef) (ComponentValue.func 0) () ()
    ⟨HydrationDirective.load, Option.some "/site/b/Bar.jsx"⟩ "/site/b/Bar.jsx"
    rfl rfl (by decide) (by decide)

/-- Claim C8: the console-error interception, once installed on the 0-to-1
transition of the active-use count, is never uninstalled — `release()` only
decrements the count (the installed flag is untouched), and under every
sequence of `use`/`release` operations an installed guard stays installed. -/
theorem consoleGuard_never_uninstalled (ops : List GuardOp) (s : ConsoleGuardState) :
    (s.installed = true → (guardRun s ops).installed = true)
  ∧ ((guardStep s .release).refs = s.refs - 1 ∧ (guardStep s .release).installed = s.installed)
  ∧ (s.refs = 0 → s.installed = false →
      guardStep s .use = { refs := 1, installed := true }) := by
  refine ⟨guardRun_installed_mono ops s, ⟨rfl, rfl⟩, fun h0 hInst => ?_⟩
  simp [guardStep, hInst, h0]

/-- Witness for C8: an installed guard survives a release/use/release history,
and the very first use installs the interception. -/
theorem consoleGuard_never_uninstalled_witness :
    (guardRun { refs := 1, installed := true }
      [GuardOp.release, GuardOp.use, GuardOp.release]).installed = true
  ∧ guardStep { refs := 0, installed := false } GuardOp.use
      = { refs := 1, installed := true } :=
  ⟨(consoleGuard_never_uninstalled [GuardOp.release, GuardOp.use, GuardOp.release]
      { refs := 1, installed := true }).1 rfl,
   (consoleGuard_never_uninstalled [] { refs := 0, installed := false }).2.2 rfl rfl⟩
